import Mathlib

/-!
Shallow embedding of the `escripts` dispatcher (src/escripts/__main__.py).

The program reads a YAML configuration describing named scripts and
aliases, resolves a command-line invocation, binds arguments through an
`argparse` parser built from the command's parameter schema, and spawns a
subprocess.  Every function below is translated from the corresponding
Python function; side effects (printing, logging, spawning) are made
explicit as an event trace, and raised exceptions are returned as values.
Python's distinction between `Exception` and `SystemExit` (a
`BaseException` that `except Exception` does not catch) is modelled
explicitly, because the program's error handling depends on it.
-/

namespace EscriptsSpec

/-- Literal left brace character (used by the alias template grammar). -/
def lbrace : Char := Char.ofNat 123

/-- Literal right brace character. -/
def rbrace : Char := Char.ofNat 125

/-- YAML-like values as produced by parsing the configuration document.
Sequences are omitted: the dispatcher logic under verification never
traverses YAML sequences.  Floats are carried symbolically as their
literal text (no claim computes with float values). -/
inductive Yaml where
  | yNull : Yaml
  | yBool : Bool → Yaml
  | yInt : Int → Yaml
  | yFloat : String → Yaml
  | yStr : String → Yaml
  | yMap : List (String × Yaml) → Yaml

/-- Python `dict.get(key)`: `none` when the key is absent (or the receiver
is not a mapping; Python would raise `AttributeError` there, which no
claim exercises -- see the comments at the call sites). -/
def Yaml.find? : Yaml → String → Option Yaml
  | .yMap m, k => (m.find? (fun p => decide (p.1 = k))).map (fun p => p.2)
  | _, _ => none

/-- Python `dict.get(key, dflt)`.  Note a key present with a null value
returns null, not the fallback, exactly as in Python. -/
def Yaml.getD (y : Yaml) (k : String) (d : Yaml) : Yaml :=
  (y.find? k).getD d

/-- Items of a mapping (`.items()`), `[]` for non-mappings. -/
def Yaml.entries : Yaml → List (String × Yaml)
  | .yMap m => m
  | _ => []

def Yaml.isNull : Yaml → Bool
  | .yNull => true
  | _ => false

/-- Strip one leading sign character. -/
def stripSign : List Char → List Char
  | '-' :: r => r
  | '+' :: r => r
  | r => r

/-- Nonempty all-digit character list. -/
def isDigits (cs : List Char) : Bool :=
  !cs.isEmpty && cs.all Char.isDigit

/-- A zero-valued float literal such as "0.0" (approximation; exponent
forms like "0e5" are treated as nonzero, unreachable by the claims). -/
def floatLitIsZero (s : String) : Bool :=
  let cs := stripSign s.data
  cs.all (fun c => decide (c = '0') || decide (c = '.')) &&
    cs.any (fun c => decide (c = '0'))

/-- Python truthiness (`if not x`) for the YAML values above. -/
def Yaml.truthy : Yaml → Bool
  | .yNull => false
  | .yBool b => b
  | .yInt n => !decide (n = 0)
  | .yFloat lit => !floatLitIsZero lit
  | .yStr s => !decide (s = "")
  | .yMap m => !m.isEmpty

/-- Python `str(v)` for the values the program stringifies (argument
values in `run_script`, placeholder substitution, help text).  Mappings
would print as a dict repr in Python; no claim stringifies a mapping. -/
def toPyStr : Yaml → String
  | .yNull => "None"
  | .yBool b => if b then "True" else "False"
  | .yInt n => toString n
  | .yFloat lit => lit
  | .yStr s => s
  | .yMap _ => "<mapping>"

/-- Value of a nonempty digit string. -/
def digitsVal (cs : List Char) : Nat :=
  cs.foldl (fun a c => a * 10 + (c.toNat - 48)) 0

/-- Python `int(s)` restricted to the plain decimal forms the program's
schemas can produce (optional sign then digits; whitespace and underscore
grouping are not modelled, no claim uses them). -/
def parsePyInt (s : String) : Option Int :=
  match s.data with
  | '-' :: rest => if isDigits rest then some (-(digitsVal rest : Int)) else none
  | '+' :: rest => if isDigits rest then some (digitsVal rest : Int) else none
  | cs => if isDigits cs then some (digitsVal cs : Int) else none

/-- Digits, or digits-dot-digits with at least one digit overall. -/
def isMantissa (cs : List Char) : Bool :=
  match cs.splitOn '.' with
  | [a] => isDigits a
  | [a, b] => a.all Char.isDigit && b.all Char.isDigit && (!a.isEmpty || !b.isEmpty)
  | _ => false

/-- Python `float(s)` syntax, restricted to finite decimal/exponent
literals (inf/nan and underscore grouping are not modelled). -/
def isFloatLit (s : String) : Bool :=
  let cs := stripSign (s.data.map Char.toLower)
  match cs.splitOn 'e' with
  | [m] => isMantissa m
  | [m, e] => isMantissa m && isDigits (stripSign e)
  | _ => false

/-- argparse's negative-number matcher (regex `^-\d+$|^-\d*\.\d+$`): such
tokens are classified as values, not options, because this parser has no
negative-number-looking option strings. -/
def isNegNumberLit (s : String) : Bool :=
  match s.data with
  | '-' :: rest =>
    match rest.splitOn '.' with
    | [a] => isDigits a
    | [a, b] => a.all Char.isDigit && isDigits b
    | _ => false
  | _ => false

/-- Prefix test on character lists (kernel-evaluable replacement for the
byte-position-based `String.startsWith`). -/
def charsPrefix : List Char → List Char → Bool
  | [], _ => true
  | _ :: _, [] => false
  | a :: as, b :: bs => decide (a = b) && charsPrefix as bs

/-- Whether `pre` is a prefix of `s`. -/
def strStartsWith (s pre : String) : Bool := charsPrefix pre.data s.data

/-- argparse classifies a token as option-like (`O`) when it starts with
the prefix char, is not the bare `-`, contains no space, and is not a
negative-number literal.  An option expecting a value treats a following
option-like token as "expected one argument" rather than consuming it. -/
def optionLike (t : String) : Bool :=
  strStartsWith t "-" && !decide (t = "-") && !t.data.contains ' ' && !isNegNumberLit t

/-- Declared argument types (`type:` in the schema; default `str`). -/
inductive ArgType where
  | str | int | float
deriving DecidableEq

/-- One parser option built by `process_command`'s `add_argument` loop:
the parameter name, the coercion type, and the declared default (`none`
when the schema entry has no `default` key, making the option required). -/
structure ArgSpec where
  name : String
  type : ArgType
  default : Option Yaml

/-- Type coercion applied by argparse to a supplied value string. -/
def coerce : ArgType → String → Option Yaml
  | .str, s => some (.yStr s)
  | .int, s => (parsePyInt s).map .yInt
  | .float, s => if isFloatLit s then some (.yFloat s) else none

/-- argparse parse failures (all of them print usage plus a message to
stderr and raise `SystemExit(2)`). -/
inductive ParseFail where
  | expectedOneArgument : String → ParseFail
  | invalidValue : String → String → ParseFail
  | missingRequired : String → ParseFail
  | ambiguousOption : String → ParseFail
deriving DecidableEq

/-- Result of matching one command-line token against the declared
options (argparse `_parse_optional`). -/
inductive Resolve where
  | matched : ArgSpec → Resolve
  | unknown : Resolve
  | ambiguous : Resolve

/-- Whether `t` is a proper abbreviation of option `--name` (argparse
`allow_abbrev`, on by default).  `=`-joined forms are not modelled (no
claim uses them). -/
def tokenAbbrev (t : String) (s : ArgSpec) : Bool :=
  strStartsWith t "--" && !decide (t = "--") && !decide (t = "--" ++ s.name) &&
    strStartsWith ("--" ++ s.name) t && !t.data.contains '='

/-- Match a token against the declared options: exact `--name` match
first, then unique-prefix abbreviation; several prefix matches are
ambiguous (argparse error), none leaves the token unrecognized. -/
def resolveOption (specs : List ArgSpec) (t : String) : Resolve :=
  match specs.find? (fun s => decide (t = "--" ++ s.name)) with
  | some s => .matched s
  | none =>
    match specs.filter (fun s => tokenAbbrev t s) with
    | [] => .unknown
    | [s] => .matched s
    | _ => .ambiguous

/-- First bound value for a name (bindings are prepended, so the first
hit is the most recent, giving argparse's last-occurrence-wins). -/
def lookupAssoc (acc : List (String × Yaml)) (k : String) : Option Yaml :=
  (acc.find? (fun p => decide (p.1 = k))).map (fun p => p.2)

/-- The token-consumption loop of `parse_known_args`: unrecognized tokens
are skipped (collected as extras and discarded by the caller), `--` ends
option parsing, a matched option consumes and coerces the next token
unless that token is option-like. -/
def scanArgs (specs : List ArgSpec) : List String → List (String × Yaml) →
    Except ParseFail (List (String × Yaml))
  | [], acc => .ok acc
  | t :: rest, acc =>
    if t = "--" then .ok acc
    else
      match resolveOption specs t with
      | .ambiguous => .error (.ambiguousOption t)
      | .unknown => scanArgs specs rest acc
      | .matched s =>
        match rest with
        | [] => .error (.expectedOneArgument s.name)
        | v :: rest2 =>
          if optionLike v then .error (.expectedOneArgument s.name)
          else
            match coerce s.type v with
            | some val => scanArgs specs rest2 ((s.name, val) :: acc)
            | none => .error (.invalidValue s.name v)

/-- The value an absent option falls back to: string defaults are passed
through the type coercion (argparse applies `type` to string defaults),
other defaults are kept as-is; no default means the option was declared
`required` and its absence is a parse failure. -/
def defaultBound (s : ArgSpec) : Except ParseFail Yaml :=
  match s.default with
  | some (.yStr str) =>
    match coerce s.type str with
    | some v => .ok v
    | none => .error (.invalidValue s.name str)
  | some d => .ok d
  | none => .error (.missingRequired s.name)

/-- Final value of one option after the scan. -/
def bindOne (bound : List (String × Yaml)) (s : ArgSpec) :
    Except ParseFail (String × Yaml) :=
  match lookupAssoc bound s.name with
  | some v => .ok (s.name, v)
  | none => (defaultBound s).map (fun v => (s.name, v))

/-- Assemble the namespace in declaration order (argparse initializes the
namespace from the actions in `add_argument` order). -/
def finalizeBindings (bound : List (String × Yaml)) :
    List ArgSpec → Except ParseFail (List (String × Yaml))
  | [] => .ok []
  | s :: ss =>
    match bindOne bound s with
    | .ok p =>
      match finalizeBindings bound ss with
      | .ok ps => .ok (p :: ps)
      | .error e => .error e
    | .error e => .error e

/-- Python `parser.parse_known_args(argv)` for the parser `process_command`
builds: scan the tokens, then bind every declared option. -/
def parseKnownArgs (specs : List ArgSpec) (argv : List String) :
    Except ParseFail (List (String × Yaml)) :=
  match scanArgs specs argv [] with
  | .error e => .error e
  | .ok bound => finalizeBindings bound specs

/-- Failures of Python `str.format(**args)` on an alias template:
a missing keyword placeholder raises `KeyError(name)` (which `run_alias`
converts to its missing-argument `ValueError`); malformed templates and
positional placeholders raise `ValueError`/`IndexError` instead, which
`except KeyError` does not catch. -/
inductive FormatErr where
  | missingKey : String → FormatErr
  | badFormat : FormatErr
deriving DecidableEq

/-- Characters of a placeholder name: everything up to the next closing
brace (format specs and conversions are not modelled; no claim uses
them). -/
def spanUntilRBrace : List Char → Option (List Char × List Char)
  | [] => none
  | c :: cs =>
    if c = rbrace then some ([], cs)
    else (spanUntilRBrace cs).map (fun p => (c :: p.1, p.2))

/-- Core of Python `str.format(**args)`: copy characters, expand `{name}`
placeholders with `str(value)`, treat doubled braces as escapes; a
missing keyword is reported for the leftmost unresolved placeholder.
Recursion is driven by a step counter so that the definition is
structural (and so kernel-evaluable): every recursive call consumes at
least one character, so a counter strictly exceeding the character count
never reaches zero. -/
def formatCore (args : List (String × Yaml)) : Nat → List Char →
    Except FormatErr (List Char)
  | 0, _ => .error .badFormat
  | _ + 1, [] => .ok []
  | fuel + 1, c :: cs =>
    if c = lbrace then
      match cs with
      | [] => .error .badFormat
      | c2 :: cs2 =>
        if c2 = lbrace then
          match formatCore args fuel cs2 with
          | .ok out => .ok (lbrace :: out)
          | .error e => .error e
        else
          match spanUntilRBrace (c2 :: cs2) with
          | none => .error .badFormat
          | some (nameCs, rest) =>
            if nameCs.isEmpty || nameCs.all Char.isDigit || nameCs.contains lbrace then
              .error .badFormat
            else
              match lookupAssoc args (String.mk nameCs) with
              | some v =>
                match formatCore args fuel rest with
                | .ok out => .ok ((toPyStr v).data ++ out)
                | .error e => .error e
              | none => .error (.missingKey (String.mk nameCs))
    else if c = rbrace then
      match cs with
      | c2 :: cs2 =>
        if c2 = rbrace then
          match formatCore args fuel cs2 with
          | .ok out => .ok (rbrace :: out)
          | .error e => .error e
        else .error .badFormat
      | [] => .error .badFormat
    else
      match formatCore args fuel cs with
      | .ok out => .ok (c :: out)
      | .error e => .error e

/-- Python `command_template.format(**args)` as a pure function. -/
def formatTemplate (tpl : String) (args : List (String × Yaml)) :
    Except FormatErr String :=
  match formatCore args (tpl.data.length + 1) tpl.data with
  | .ok out => .ok (String.mk out)
  | .error e => .error e

/-- A subprocess request: either the interpreter invocation built by
`run_script` (argument vector plus the PYTHONPATH injected into the child
environment) or the shell string run by `run_alias` (with its working
directory). -/
inductive SpawnReq where
  | script : List String → String → SpawnReq
  | shell : String → String → SpawnReq
deriving DecidableEq

/-- Exceptions this program raises that are subclasses of `Exception`
(so `except Exception` catches them). -/
inductive ExcKind where
  | missingPath : ExcKind
  | fileNotFound : String → ExcKind
  | notAFile : String → ExcKind
  | missingCommand : ExcKind
  | missingArgument : String → ExcKind
  | formatError : ExcKind
  | typeError : ExcKind
  | unknownCommandType : String → ExcKind
  | calledProcess : Int → ExcKind
deriving DecidableEq

/-- A raised Python exception: ordinary `Exception` subclasses versus
`SystemExit`, which subclasses `BaseException` only, so `except
Exception` handlers let it propagate. -/
inductive Exn where
  | exc : ExcKind → Exn
  | systemExit : Int → Exn
deriving DecidableEq

/-- Errors raised by `_load_config` (concrete exception classes in
parentheses). -/
inductive ConfigExn where
  | namespaceNotFound : String → ConfigExn
  | namespaceNotDir : String → ConfigExn
  | configNotFound : String → ConfigExn
  | configNotFile : String → ConfigExn
  | yamlError : ConfigExn
  | emptyConfig : ConfigExn
deriving DecidableEq

/-- Structured payloads of the program's `logging.error` calls. -/
inductive LogMsg where
  | runCommandError : String → ExcKind → LogMsg
  | scriptProcError : Int → LogMsg
  | aliasProcError : Int → LogMsg
  | mainError : ConfigExn → LogMsg
  | mainExcError : ExcKind → LogMsg
deriving DecidableEq

/-- Observable side effects, in order of occurrence. -/
inductive Event where
  | printed : String → Event
  | printedErr : ParseFail → Event
  | logged : LogMsg → Event
  | spawned : SpawnReq → Event
deriving DecidableEq

def Event.isSpawn : Event → Bool
  | .spawned _ => true
  | _ => false

/-- The subprocess requests among a trace. -/
def spawnsOf (evs : List Event) : List Event :=
  evs.filter Event.isSpawn

/-- The filesystem facts the program queries (`exists`, `is_file`,
`is_dir` on paths). -/
structure FS where
  pathExists : String → Bool
  isFile : String → Bool
  isDir : String → Bool

/-- The ambient process state: filesystem, the result of
`yaml.safe_load` on the workspace's config.yml (`.error` for a
`YAMLError`, `.ok .yNull` for an empty document), the
`ESCRIPTS_PYTHON` override, `sys.executable`, and the exit codes of
spawned subprocesses. -/
structure World where
  fs : FS
  yamlParse : Except Unit Yaml
  escriptsPython : Option String
  sysExecutable : String
  runProc : SpawnReq → Int

/-- Path join `self.namespace / rel` (the workspace path is taken to be absolute
and `rel` relative, the configuration shape the program documents). -/
def joinPath (a b : String) : String := a ++ "/" ++ b

/-- Model of `Escripts.run_script`: check the configured path, build the
interpreter command line with each bound argument as a `--name value`
pair, spawn with PYTHONPATH set to the workspace, and convert a nonzero
child exit into a logged-and-reraised `CalledProcessError`. -/
def runScript (ns : String) (w : World) (details : Yaml)
    (args : List (String × Yaml)) : List Event × Option Exn :=
  let relY := details.getD "path" .yNull
  if !relY.truthy then ([], some (.exc .missingPath))
  else
    match relY with
    | .yStr rel =>
      let p := joinPath ns rel
      if !w.fs.pathExists p then ([], some (.exc (.fileNotFound p)))
      else if !w.fs.isFile p then ([], some (.exc (.notAFile p)))
      else
        let exe := w.escriptsPython.getD w.sysExecutable
        let cmd := exe :: p ::
          args.foldr (fun kv acc => ("--" ++ kv.1) :: toPyStr kv.2 :: acc) []
        let req := SpawnReq.script cmd ns
        let code := w.runProc req
        if code = 0 then ([.spawned req], none)
        else ([.spawned req, .logged (.scriptProcError code)],
              some (.exc (.calledProcess code)))
    | _ => ([], some (.exc .typeError))

/-- Model of `Escripts.run_alias`: format the template over the bound arguments
(`KeyError` becomes the missing-argument `ValueError`), then run the
string through the shell in the workspace directory, logging and
re-raising a nonzero exit. -/
def runAlias (ns : String) (w : World) (details : Yaml)
    (args : List (String × Yaml)) : List Event × Option Exn :=
  let cY := details.getD "command" .yNull
  if !cY.truthy then ([], some (.exc .missingCommand))
  else
    match cY with
    | .yStr tpl =>
      match formatTemplate tpl args with
      | .error (.missingKey nm) => ([], some (.exc (.missingArgument nm)))
      | .error .badFormat => ([], some (.exc .formatError))
      | .ok s =>
        let req := SpawnReq.shell s ns
        let code := w.runProc req
        if code = 0 then ([.spawned req], none)
        else ([.spawned req, .logged (.aliasProcError code)],
              some (.exc (.calledProcess code)))
    | _ => ([], some (.exc .typeError))

/-- Python `"--help" in argv`. -/
def hasHelp (argv : List String) : Bool :=
  argv.any (fun t => decide (t = "--help"))

/-- One line of `Escripts.print_help` for a schema entry: the default is
shown only when it `is not None`. -/
def helpArgLine (arg : String) (det : Yaml) : String :=
  let ds := toPyStr (det.getD "description" (.yStr ""))
  let dflt := det.getD "default" .yNull
  if dflt.isNull then "\t--" ++ arg ++ " - " ++ ds
  else "\t--" ++ arg ++ " [default: " ++ toPyStr dflt ++ "] - " ++ ds

/-- Model of `Escripts.print_help`: command name, description, and (when the
schema is truthy) one line per declared parameter. -/
def printHelpEvents (name : String) (desc : Yaml) (argsCfg : Yaml) :
    List Event :=
  [.printed ("Команда: " ++ name), .printed ("Описание: " ++ toPyStr desc)] ++
    (if argsCfg.truthy then
      .printed "Аргументы:" ::
        argsCfg.entries.map (fun p => .printed (helpArgLine p.1 p.2))
    else [])

/-- The parser options `process_command` builds from the schema: type
from the `type` key (`int`/`float` recognized, anything else is `str`),
default from the presence of the `default` key. -/
def specsOf (argsCfg : Yaml) : List ArgSpec :=
  argsCfg.entries.map (fun p =>
    { name := p.1
      type :=
        match p.2.find? "type" with
        | some (.yStr "int") => ArgType.int
        | some (.yStr "float") => ArgType.float
        | _ => ArgType.str
      default := p.2.find? "default" })

/-- Model of `Escripts.process_command`.  The `--help` check precedes parsing.  A
parse failure makes argparse print usage plus the error to stderr and
raise `SystemExit(2)`; the surrounding `except Exception` does not catch
`SystemExit` (it subclasses `BaseException` only), so the failure
propagates out and the intended `logging.error` branch is dead code.
Executor exceptions, by contrast, are `Exception` subclasses and are
caught and logged here. -/
def processCommand (ns : String) (w : World) (typeCommand : String)
    (name : String) (data : Yaml) (argv : List String) :
    List Event × Option Exn :=
  let details := (data.find? name).getD .yNull
  let argsCfg := details.getD "args" (.yMap [])
  if hasHelp argv then
    (printHelpEvents name (details.getD "description" (.yStr "")) argsCfg, none)
  else
    match parseKnownArgs (specsOf argsCfg) argv with
    | .error f => ([.printedErr f], some (.systemExit 2))
    | .ok binds =>
      let r :=
        if typeCommand = "scripts" then runScript ns w details binds
        else if typeCommand = "aliases" then runAlias ns w details binds
        else ([], some (.exc (.unknownCommandType typeCommand)))
      match r.2 with
      | some (.exc k) => (r.1 ++ [.logged (.runCommandError name k)], none)
      | some (.systemExit c) => (r.1, some (.systemExit c))
      | none => (r.1, none)

/-- The usage text printed when no command is given. -/
def usageEvents : List Event :=
  [.printed ("Использование:\n\tescripts [--list] <command> [--args=args] [--help]\n" ++
    "Для просмотра списка команд используйте --list.")]

/-- The guidance printed for an unknown command name. -/
def unknownCommandMsg : String :=
  "Неизвестная команда. Воспользуйтесь `--list` для просмотра доступных команд."

/-- Model of `Escripts.command_list`: both sections with descriptions, or the
empty marker. -/
def commandListEvents (data : Yaml) : List Event :=
  let scripts := data.getD "scripts" (.yMap [])
  let aliases := data.getD "aliases" (.yMap [])
  (.printed "Скрипты:" ::
    (if scripts.truthy then
      scripts.entries.map (fun p =>
        .printed ("\t- " ++ p.1 ++ ": " ++ toPyStr (p.2.getD "description" (.yStr ""))))
    else [.printed "\tПусто"])) ++
  (.printed "Алиасы:" ::
    (if aliases.truthy then
      aliases.entries.map (fun p =>
        .printed ("\t- " ++ p.1 ++ ": " ++ toPyStr (p.2.getD "description" (.yStr ""))))
    else [.printed "\tПусто"]))

/-- Model of `Escripts.run` on `sys.argv[1:]`: usage when empty, the built-in
`--list`, then name lookup in `scripts` before `aliases`, else the
unknown-command message. -/
def runDispatch (ns : String) (w : World) (data : Yaml)
    (argvTail : List String) : List Event × Option Exn :=
  match argvTail with
  | [] => (usageEvents, none)
  | command :: argv =>
    if command = "--list" then (commandListEvents data, none)
    else if ((data.getD "scripts" (.yMap [])).find? command).isSome then
      processCommand ns w "scripts" command (data.getD "scripts" (.yMap [])) argv
    else if ((data.getD "aliases" (.yMap [])).find? command).isSome then
      processCommand ns w "aliases" command (data.getD "aliases" (.yMap [])) argv
    else ([.printed unknownCommandMsg], none)

/-- Model of `Escripts._load_config`: existence and file-kind checks on the
workspace and `config.yml`, then YAML parsing; a `None` document (empty
file) is rejected, and a successful parse is returned unchanged. -/
def loadConfig (ns : String) (w : World) : Except ConfigExn Yaml :=
  if !w.fs.pathExists ns then .error (.namespaceNotFound ns)
  else if !w.fs.isDir ns then .error (.namespaceNotDir ns)
  else
    let cp := joinPath ns "config.yml"
    if !w.fs.pathExists cp then .error (.configNotFound cp)
    else if !w.fs.isFile cp then .error (.configNotFile cp)
    else
      match w.yamlParse with
      | .error _ => .error .yamlError
      | .ok y => if y.isNull then .error .emptyConfig else .ok y

/-- The spec's abstract error taxonomy for config loading. -/
inductive SpecErrKind where
  | notFound | invalidPath | parseFail | emptyConfig
deriving DecidableEq

/-- Which spec-level error each concrete `_load_config` exception is. -/
def ConfigExn.specKind : ConfigExn → SpecErrKind
  | .namespaceNotFound _ => .notFound
  | .configNotFound _ => .notFound
  | .namespaceNotDir _ => .invalidPath
  | .configNotFile _ => .invalidPath
  | .yamlError => .parseFail
  | .emptyConfig => .emptyConfig

/-- Model of `main`: load the configuration and dispatch, catching `Exception`
(log and exit 1) but not `SystemExit`, whose code becomes the process
exit status; a normal return exits 0. -/
def escriptsMain (ns : String) (w : World) (argvTail : List String) :
    List Event × Int :=
  match loadConfig ns w with
  | .error e => ([.logged (.mainError e)], 1)
  | .ok data =>
    match runDispatch ns w data argvTail with
    | (evs, none) => (evs, 0)
    | (evs, some (.systemExit c)) => (evs, c)
    | (evs, some (.exc k)) => (evs ++ [.logged (.mainExcError k)], 1)

/-! Shared concrete fixtures used by the witnesses. -/

/-- A filesystem on which every path exists as both file and directory. -/
def allFS : FS := ⟨fun _ => true, fun _ => true, fun _ => true⟩

/-- A filesystem with no paths at all. -/
def emptyFS : FS := ⟨fun _ => false, fun _ => false, fun _ => false⟩

/-- A world with a trivially valid empty-mapping configuration. -/
def wTriv : World := ⟨allFS, .ok (.yMap []), none, "python3", fun _ => 0⟩

/-- A configuration defining the same name `hi` as a script and as an
alias. -/
def bothData : Yaml :=
  .yMap [("scripts", .yMap [("hi", .yMap [])]),
         ("aliases", .yMap [("hi", .yMap [])])]

/-- A scripts section with one command carrying a description and one
defaulted parameter. -/
def greetSection : Yaml :=
  .yMap [("greet", .yMap
    [("description", .yStr "hello"),
     ("args", .yMap [("msg", .yMap
       [("default", .yStr "hi"), ("description", .yStr "the message")])])])]

theorem lookupAssoc_cons_ne (p : String × Yaml) (acc : List (String × Yaml))
    (name : String) (h : p.1 ≠ name) :
    lookupAssoc (p :: acc) name = lookupAssoc acc name := by
  simp [lookupAssoc, List.find?, h]

theorem spawns_help_lines (l : List (String × Yaml)) :
    (l.map (fun p => Event.printed (helpArgLine p.1 p.2))).filter Event.isSpawn
      = [] := by
  induction l with
  | nil => rfl
  | cons p l ih => simp [List.filter, Event.isSpawn, ih]

theorem spawns_printHelp (n : String) (d a : Yaml) :
    spawnsOf (printHelpEvents n d a) = [] := by
  unfold spawnsOf printHelpEvents
  rw [List.filter_append]
  by_cases h : a.truthy
  · simp [h, List.filter, Event.isSpawn, spawns_help_lines]
  · simp [h, List.filter, Event.isSpawn]

/-- Claim C10: an invocation whose first argument is the literal token
`--list` always runs the built-in listing command, for every loaded
configuration — including one that defines a script or alias named
`--list`, which is therefore unreachable through the dispatcher. -/
theorem c10_list_always_builtin (ns : String) (w : World) (data : Yaml)
    (rest : List String) :
    runDispatch ns w data ("--list" :: rest) = (commandListEvents data, none) := by
  simp [runDispatch]

/-- Claim C2: a command name present in the `scripts` section is
dispatched to the script executor with the `scripts` definition, whatever
the `aliases` section holds under the same name — lookup checks `scripts`
before `aliases`. -/
theorem c2_scripts_shadow_aliases (ns : String) (w : World) (data : Yaml)
    (cmd : String) (argv : List String)
    (hcmd : cmd ≠ "--list")
    (hs : ((data.getD "scripts" (.yMap [])).find? cmd).isSome = true)
    (ha : ((data.getD "aliases" (.yMap [])).find? cmd).isSome = true) :
    runDispatch ns w data (cmd :: argv) =
      processCommand ns w "scripts" cmd (data.getD "scripts" (.yMap [])) argv := by
  simp [runDispatch, hcmd, hs]

theorem c2_scripts_shadow_aliases_witness :
    runDispatch "/ws" wTriv bothData ["hi"] =
      processCommand "/ws" wTriv "scripts" "hi"
        (bothData.getD "scripts" (.yMap [])) [] :=
  c2_scripts_shadow_aliases "/ws" wTriv bothData "hi" [] (by decide) (by decide)
    (by decide)

/-- Claim C9: a first argument found in neither `scripts` nor `aliases`
makes the dispatcher print the guidance message referencing `--list`, and
the process exits with code 0 — no exception reaches the top level. -/
theorem c9_unknown_command_exit_zero (ns : String) (w : World) (data : Yaml)
    (cmd : String) (rest : List String)
    (hload : loadConfig ns w = .ok data)
    (hcmd : cmd ≠ "--list")
    (hs : (data.getD "scripts" (.yMap [])).find? cmd = none)
    (ha : (data.getD "aliases" (.yMap [])).find? cmd = none) :
    escriptsMain ns w (cmd :: rest) = ([.printed unknownCommandMsg], 0) := by
  simp [escriptsMain, hload, runDispatch, hcmd, hs, ha]

theorem c9_unknown_command_exit_zero_witness :
    escriptsMain "/ws" wTriv ["nope"] = ([.printed unknownCommandMsg], 0) :=
  c9_unknown_command_exit_zero "/ws" wTriv (.yMap []) "nope" [] rfl (by decide)
    rfl rfl

/-- Claim C3: whenever the remaining tokens contain the literal `--help`,
`process_command` prints the command name, description and parameter list
(name, default when not null, description) and returns without raising
and without spawning any subprocess, regardless of the other tokens. -/
theorem c3_help_no_execution (ns : String) (w : World) (tc name : String)
    (data : Yaml) (argv : List String)
    (h : hasHelp argv = true) :
    processCommand ns w tc name data argv =
      (printHelpEvents name
        (((data.find? name).getD .yNull).getD "description" (.yStr ""))
        (((data.find? name).getD .yNull).getD "args" (.yMap [])), none) ∧
    spawnsOf (processCommand ns w tc name data argv).1 = [] := by
  have h1 : processCommand ns w tc name data argv =
      (printHelpEvents name
        (((data.find? name).getD .yNull).getD "description" (.yStr ""))
        (((data.find? name).getD .yNull).getD "args" (.yMap [])), none) := by
    simp [processCommand, h]
  refine ⟨h1, ?_⟩
  rw [h1]
  exact spawns_printHelp _ _ _

theorem c3_help_no_execution_witness :
    processCommand "/ws" wTriv "scripts" "greet" greetSection
        ["--bogus", "--help"] =
      (printHelpEvents "greet" (.yStr "hello")
        (.yMap [("msg", .yMap
          [("default", .yStr "hi"), ("description", .yStr "the message")])]),
       none) ∧
    spawnsOf (processCommand "/ws" wTriv "scripts" "greet" greetSection
        ["--bogus", "--help"]).1 = [] :=
  c3_help_no_execution "/ws" wTriv "scripts" "greet" greetSection
    ["--bogus", "--help"] (by decide)

/-- Claim C5: the alias executor substitutes `\x7bname\x7d` placeholders with
bound values (so `echo \x7bmsg\x7d` with `msg="hi"` yields `echo hi`); a
placeholder with no bound value fails with the missing-argument error
naming the first unresolved placeholder and spawns nothing; a definition
whose `command` entry is absent fails with the missing-command error. -/
theorem c5_alias_formatting :
    (∀ (ns : String) (w : World) (details : Yaml) (args : List (String × Yaml)),
      (details.getD "command" .yNull).truthy = false →
      runAlias ns w details args = ([], some (.exc .missingCommand))) ∧
    (∀ (ns : String) (w : World) (details : Yaml) (args : List (String × Yaml))
        (tpl nm : String),
      details.getD "command" .yNull = .yStr tpl → tpl ≠ "" →
      formatTemplate tpl args = .error (.missingKey nm) →
      runAlias ns w details args = ([], some (.exc (.missingArgument nm)))) ∧
    (∀ (ns : String) (w : World) (details : Yaml) (args : List (String × Yaml))
        (tpl s : String),
      details.getD "command" .yNull = .yStr tpl → tpl ≠ "" →
      formatTemplate tpl args = .ok s →
      (runAlias ns w details args).1.head? = some (.spawned (.shell s ns))) ∧
    formatTemplate "echo \x7bmsg\x7d" [("msg", .yStr "hi")] = .ok "echo hi" ∧
    formatTemplate "echo \x7bmsg\x7d" [] = .error (.missingKey "msg") := by
  refine ⟨?_, ?_, ?_, rfl, rfl⟩
  · intro ns w details args h
    simp [runAlias, h]
  · intro ns w details args tpl nm htpl hne hfmt
    simp [runAlias, htpl, Yaml.truthy, hne, hfmt]
  · intro ns w details args tpl s htpl hne hfmt
    by_cases hc : w.runProc (.shell s ns) = 0 <;>
      simp [runAlias, htpl, Yaml.truthy, hne, hfmt, hc]

theorem c5_alias_formatting_witness :
    runAlias "/ws" wTriv (.yMap []) [] = ([], some (.exc .missingCommand)) ∧
    runAlias "/ws" wTriv (.yMap [("command", .yStr "echo \x7bmsg\x7d")]) [] =
      ([], some (.exc (.missingArgument "msg"))) ∧
    (runAlias "/ws" wTriv (.yMap [("command", .yStr "echo \x7bmsg\x7d")])
        [("msg", .yStr "hi")]).1.head? =
      some (.spawned (.shell "echo hi" "/ws")) :=
  ⟨c5_alias_formatting.1 "/ws" wTriv (.yMap []) [] rfl,
   c5_alias_formatting.2.1 "/ws" wTriv
     (.yMap [("command", .yStr "echo \x7bmsg\x7d")]) [] _ "msg" rfl (by decide) rfl,
   c5_alias_formatting.2.2.1 "/ws" wTriv
     (.yMap [("command", .yStr "echo \x7bmsg\x7d")]) [("msg", .yStr "hi")]
     _ "echo hi" rfl (by decide) rfl⟩

/-- Claim C6: the script executor fails with the missing-path error when
the definition has no `path`, with the not-found error when the path
resolved against the workspace does not exist, and with the invalid-path
error when it exists but is not a regular file — in each case with an
empty event trace, so before any subprocess is spawned. -/
theorem c6_script_path_checks :
    (∀ (ns : String) (w : World) (details : Yaml) (args : List (String × Yaml)),
      (details.getD "path" .yNull).truthy = false →
      runScript ns w details args = ([], some (.exc .missingPath))) ∧
    (∀ (ns : String) (w : World) (details : Yaml) (args : List (String × Yaml))
        (rel : String),
      details.getD "path" .yNull = .yStr rel → rel ≠ "" →
      w.fs.pathExists (joinPath ns rel) = false →
      runScript ns w details args =
        ([], some (.exc (.fileNotFound (joinPath ns rel))))) ∧
    (∀ (ns : String) (w : World) (details : Yaml) (args : List (String × Yaml))
        (rel : String),
      details.getD "path" .yNull = .yStr rel → rel ≠ "" →
      w.fs.pathExists (joinPath ns rel) = true →
      w.fs.isFile (joinPath ns rel) = false →
      runScript ns w details args =
        ([], some (.exc (.notAFile (joinPath ns rel))))) := by
  refine ⟨?_, ?_, ?_⟩
  · intro ns w details args h
    simp [runScript, h]
  · intro ns w details args rel hrel hne hex
    simp [runScript, hrel, Yaml.truthy, hne, hex]
  · intro ns w details args rel hrel hne hex hfile
    simp [runScript, hrel, Yaml.truthy, hne, hex, hfile]

/-- A world whose filesystem holds only the directory `/ws` itself. -/
def wNoFiles : World := ⟨emptyFS, .ok .yNull, none, "python3", fun _ => 0⟩

/-- A world on which every path exists but none is a regular file. -/
def wAllDirs : World :=
  ⟨⟨fun _ => true, fun _ => false, fun _ => true⟩, .ok .yNull, none,
   "python3", fun _ => 0⟩

theorem c6_script_path_checks_witness :
    runScript "/ws" wNoFiles (.yMap []) [] = ([], some (.exc .missingPath)) ∧
    runScript "/ws" wNoFiles (.yMap [("path", .yStr "a.py")]) [] =
      ([], some (.exc (.fileNotFound "/ws/a.py"))) ∧
    runScript "/ws" wAllDirs (.yMap [("path", .yStr "a.py")]) [] =
      ([], some (.exc (.notAFile "/ws/a.py"))) :=
  ⟨c6_script_path_checks.1 "/ws" wNoFiles (.yMap []) [] rfl,
   c6_script_path_checks.2.1 "/ws" wNoFiles (.yMap [("path", .yStr "a.py")])
     [] "a.py" rfl (by decide) rfl,
   c6_script_path_checks.2.2 "/ws" wAllDirs (.yMap [("path", .yStr "a.py")])
     [] "a.py" rfl (by decide) rfl rfl⟩

/-- Claim C7: config loading fails with a not-found error when the
workspace directory or the config file inside it is missing, with an
invalid-path error when the workspace exists but is not a directory or
the config path exists but is not a regular file, with a parse error on
invalid YAML, and with the empty-config error when parsing yields no
content; on success the parsed document is returned unchanged. -/
theorem c7_load_config_contract :
    (∀ (ns : String) (w : World), w.fs.pathExists ns = false →
      loadConfig ns w = .error (.namespaceNotFound ns) ∧
      (ConfigExn.namespaceNotFound ns).specKind = .notFound) ∧
    (∀ (ns : String) (w : World), w.fs.pathExists ns = true →
      w.fs.isDir ns = false →
      loadConfig ns w = .error (.namespaceNotDir ns) ∧
      (ConfigExn.namespaceNotDir ns).specKind = .invalidPath) ∧
    (∀ (ns : String) (w : World), w.fs.pathExists ns = true →
      w.fs.isDir ns = true →
      w.fs.pathExists (joinPath ns "config.yml") = false →
      loadConfig ns w = .error (.configNotFound (joinPath ns "config.yml")) ∧
      (ConfigExn.configNotFound (joinPath ns "config.yml")).specKind
        = .notFound) ∧
    (∀ (ns : String) (w : World), w.fs.pathExists ns = true →
      w.fs.isDir ns = true →
      w.fs.pathExists (joinPath ns "config.yml") = true →
      w.fs.isFile (joinPath ns "config.yml") = false →
      loadConfig ns w = .error (.configNotFile (joinPath ns "config.yml")) ∧
      (ConfigExn.configNotFile (joinPath ns "config.yml")).specKind
        = .invalidPath) ∧
    (∀ (ns : String) (w : World), w.fs.pathExists ns = true →
      w.fs.isDir ns = true →
      w.fs.pathExists (joinPath ns "config.yml") = true →
      w.fs.isFile (joinPath ns "config.yml") = true →
      w.yamlParse = .error () →
      loadConfig ns w = .error .yamlError ∧
      ConfigExn.yamlError.specKind = .parseFail) ∧
    (∀ (ns : String) (w : World) (y : Yaml), w.fs.pathExists ns = true →
      w.fs.isDir ns = true →
      w.fs.pathExists (joinPath ns "config.yml") = true →
      w.fs.isFile (joinPath ns "config.yml") = true →
      w.yamlParse = .ok y → y.isNull = true →
      loadConfig ns w = .error .emptyConfig ∧
      ConfigExn.emptyConfig.specKind = .emptyConfig) ∧
    (∀ (ns : String) (w : World) (y : Yaml), w.fs.pathExists ns = true →
      w.fs.isDir ns = true →
      w.fs.pathExists (joinPath ns "config.yml") = true →
      w.fs.isFile (joinPath ns "config.yml") = true →
      w.yamlParse = .ok y → y.isNull = false →
      loadConfig ns w = .ok y) := by
  refine ⟨?_, ?_, ?_, ?_, ?_, ?_, ?_⟩
  · intro ns w h
    exact ⟨by simp [loadConfig, h], rfl⟩
  · intro ns w h1 h2
    exact ⟨by simp [loadConfig, h1, h2], rfl⟩
  · intro ns w h1 h2 h3
    exact ⟨by simp [loadConfig, h1, h2, h3], rfl⟩
  · intro ns w h1 h2 h3 h4
    exact ⟨by simp [loadConfig, h1, h2, h3, h4], rfl⟩
  · intro ns w h1 h2 h3 h4 h5
    exact ⟨by simp [loadConfig, h1, h2, h3, h4, h5], rfl⟩
  · intro ns w y h1 h2 h3 h4 h5 h6
    exact ⟨by simp [loadConfig, h1, h2, h3, h4, h5, h6], rfl⟩
  · intro ns w y h1 h2 h3 h4 h5 h6
    simp [loadConfig, h1, h2, h3, h4, h5, h6]

/-- A world whose `/ws` path exists as a regular file, not a directory. -/
def wWsIsFile : World :=
  ⟨⟨fun p => decide (p = "/ws"), fun p => decide (p = "/ws"), fun _ => false⟩,
   .ok .yNull, none, "python3", fun _ => 0⟩

/-- A world whose `/ws` directory exists but holds no config.yml. -/
def wWsNoConfig : World :=
  ⟨⟨fun p => decide (p = "/ws"), fun _ => false, fun p => decide (p = "/ws")⟩,
   .ok .yNull, none, "python3", fun _ => 0⟩

theorem c7_load_config_contract_witness :
    (loadConfig "/ws" wWsIsFile = .error (.namespaceNotDir "/ws") ∧
      (ConfigExn.namespaceNotDir "/ws").specKind = .invalidPath) ∧
    (loadConfig "/ws" wWsNoConfig =
        .error (.configNotFound "/ws/config.yml") ∧
      (ConfigExn.configNotFound "/ws/config.yml").specKind = .notFound) ∧
    loadConfig "/ws" wTriv = .ok (.yMap []) :=
  ⟨c7_load_config_contract.2.1 "/ws" wWsIsFile rfl rfl,
   c7_load_config_contract.2.2.1 "/ws" wWsNoConfig rfl rfl rfl,
   c7_load_config_contract.2.2.2.2.2.2 "/ws" wTriv (.yMap []) rfl rfl rfl rfl
     rfl rfl⟩

/-- Claim C8 counterexample: with the single declared option `--count`
(int, default 1), the token `--junk` corresponds to no declared parameter
option, yet `["--count", "--junk", "5"]` is a parse failure ("expected
one argument", as in argparse, which refuses an option-like token in a
value position) while `["--count", "5"]` parses — so an unrecognized
extra token can cause a parse failure and change the outcome. -/
theorem c8_unrecognized_token_can_fail :
    resolveOption [⟨"count", .int, some (.yInt 1)⟩] "--junk" = .unknown ∧
    parseKnownArgs [⟨"count", .int, some (.yInt 1)⟩] ["--count", "5"] =
      .ok [("count", .yInt 5)] ∧
    parseKnownArgs [⟨"count", .int, some (.yInt 1)⟩]
        ["--count", "--junk", "5"] =
      .error (.expectedOneArgument "count") :=
  ⟨rfl, rfl, rfl⟩

/-- Claim C8 (amended): an unrecognized token that is not in the value
position of a declared option (that is, standing at the head of the
tokens still to be scanned) is ignored: the scan, and hence the whole
parse, is exactly as if the token were absent.  Unrecognized option-like
tokens in a value position instead cause a parse failure (see the
counterexample). -/
theorem c8_lenient_outside_value_position (specs : List ArgSpec)
    (t : String) (rest : List String)
    (hunk : resolveOption specs t = .unknown) (hdd : t ≠ "--") :
    (∀ acc, scanArgs specs (t :: rest) acc = scanArgs specs rest acc) ∧
    parseKnownArgs specs (t :: rest) = parseKnownArgs specs rest := by
  have h1 : ∀ acc, scanArgs specs (t :: rest) acc = scanArgs specs rest acc := by
    intro acc
    simp [scanArgs, hunk, hdd]
  exact ⟨h1, by unfold parseKnownArgs; rw [h1]⟩

theorem c8_lenient_outside_value_position_witness :
    parseKnownArgs [⟨"count", .int, some (.yInt 1)⟩] ["junk", "--count", "5"] =
      parseKnownArgs [⟨"count", .int, some (.yInt 1)⟩] ["--count", "5"] :=
  (c8_lenient_outside_value_position [⟨"count", .int, some (.yInt 1)⟩]
    "junk" ["--count", "5"] rfl (by decide)).2

/-- Whether token `t` resolves to the declared option called `name`. -/
def tokenBindsName (specs : List ArgSpec) (t name : String) : Bool :=
  match resolveOption specs t with
  | .matched s => decide (s.name = name)
  | _ => false

theorem scan_unbound (specs : List ArgSpec) (name : String) :
    ∀ (argv : List String) (acc bound : List (String × Yaml)),
      (∀ t ∈ argv, tokenBindsName specs t name = false) →
      lookupAssoc acc name = none →
      scanArgs specs argv acc = .ok bound →
      lookupAssoc bound name = none := by
  have main : ∀ (n : Nat) (argv : List String), argv.length ≤ n →
      ∀ (acc bound : List (String × Yaml)),
      (∀ t ∈ argv, tokenBindsName specs t name = false) →
      lookupAssoc acc name = none →
      scanArgs specs argv acc = .ok bound →
      lookupAssoc bound name = none := by
    intro n
    induction n with
    | zero =>
      intro argv hlen acc bound hall hacc h
      have hnil : argv = [] := List.eq_nil_of_length_eq_zero (Nat.le_zero.mp hlen)
      subst hnil
      simp only [scanArgs, Except.ok.injEq] at h
      rw [← h]
      exact hacc
    | succ n ih =>
      intro argv hlen acc bound hall hacc h
      cases argv with
      | nil =>
        simp only [scanArgs, Except.ok.injEq] at h
        rw [← h]
        exact hacc
      | cons t rest =>
        simp only [scanArgs] at h
        by_cases ht : t = "--"
        · rw [if_pos ht] at h
          simp only [Except.ok.injEq] at h
          rw [← h]
          exact hacc
        · rw [if_neg ht] at h
          have hlen' : rest.length ≤ n := by
            simp only [List.length_cons] at hlen
            omega
          cases hr : resolveOption specs t with
          | ambiguous =>
            simp only [hr] at h
            cases h
          | unknown =>
            simp only [hr] at h
            exact ih rest hlen' acc bound
              (fun u hu => hall u (List.mem_cons_of_mem _ hu)) hacc h
          | matched s =>
            simp only [hr] at h
            cases rest with
            | nil => cases h
            | cons v rest2 =>
              dsimp only at h
              by_cases hv : optionLike v
              · rw [if_pos hv] at h
                cases h
              · rw [if_neg hv] at h
                cases hco : coerce s.type v with
                | none =>
                  simp only [hco] at h
                  cases h
                | some val =>
                  simp only [hco] at h
                  have hsname : s.name ≠ name := by
                    have hb := hall t (List.mem_cons_self _ _)
                    unfold tokenBindsName at hb
                    rw [hr] at hb
                    simpa using hb
                  have hacc' : lookupAssoc ((s.name, val) :: acc) name = none := by
                    rw [lookupAssoc_cons_ne _ _ _ hsname]
                    exact hacc
                  have hlen2 : rest2.length ≤ n := by
                    simp only [List.length_cons] at hlen
                    omega
                  exact ih rest2 hlen2 _ bound
                    (fun u hu => hall u
                      (List.mem_cons_of_mem _ (List.mem_cons_of_mem _ hu)))
                    hacc' h
  intro argv
  exact main argv.length argv (Nat.le_refl _)

theorem finalize_mem_ok (bound : List (String × Yaml)) :
    ∀ (specs : List ArgSpec) (bs : List (String × Yaml)),
      finalizeBindings bound specs = .ok bs →
      ∀ s ∈ specs, ∃ p, bindOne bound s = .ok p := by
  intro specs
  induction specs with
  | nil =>
    intro bs _ s hs
    simp at hs
  | cons s0 ss ih =>
    intro bs h s hs
    simp only [finalizeBindings] at h
    cases hb : bindOne bound s0 with
    | error e => simp only [hb] at h; cases h
    | ok p =>
      simp only [hb] at h
      cases hrec : finalizeBindings bound ss with
      | error e => simp only [hrec] at h; cases h
      | ok ps =>
        cases List.mem_cons.mp hs with
        | inl he => exact ⟨p, he ▸ hb⟩
        | inr hm => exact ih ps hrec s hm

theorem bindOne_key (bound : List (String × Yaml)) (s : ArgSpec)
    (p : String × Yaml) (hb : bindOne bound s = .ok p) : p.1 = s.name := by
  unfold bindOne at hb
  cases hl : lookupAssoc bound s.name with
  | some v =>
    simp only [hl] at hb
    cases hb
    rfl
  | none =>
    simp only [hl] at hb
    cases hdb : defaultBound s with
    | ok dv =>
      simp only [hdb, Except.map] at hb
      cases hb
      rfl
    | error e =>
      simp only [hdb, Except.map] at hb
      cases hb

theorem finalize_lookup_default (bound : List (String × Yaml)) (name : String) :
    ∀ (specs : List ArgSpec) (bs : List (String × Yaml)) (s : ArgSpec) (d : Yaml),
      specs.find? (fun x => decide (x.name = name)) = some s →
      lookupAssoc bound name = none →
      defaultBound s = .ok d →
      finalizeBindings bound specs = .ok bs →
      lookupAssoc bs name = some d := by
  intro specs
  induction specs with
  | nil =>
    intro bs s d hf
    simp [List.find?] at hf
  | cons s0 ss ih =>
    intro bs s d hf hlb hd h
    simp only [finalizeBindings] at h
    by_cases h0 : s0.name = name
    · have hs0 : s = s0 := by
        simp only [List.find?, h0, decide_True] at hf
        exact (Option.some.injEq _ _ ▸ hf).symm
      subst hs0
      have hb : bindOne bound s = .ok (s.name, d) := by
        unfold bindOne
        rw [h0, hlb, hd]
        rfl
      rw [hb] at h
      cases hrec : finalizeBindings bound ss with
      | error e => simp only [hrec] at h; cases h
      | ok ps =>
        simp only [hrec, Except.ok.injEq] at h
        rw [← h]
        simp [lookupAssoc, List.find?, h0]
    · have hf' : ss.find? (fun x => decide (x.name = name)) = some s := by
        simp only [List.find?, h0, decide_False] at hf
        exact hf
      cases hb : bindOne bound s0 with
      | error e => simp only [hb] at h; cases h
      | ok p =>
        simp only [hb] at h
        cases hrec : finalizeBindings bound ss with
        | error e => simp only [hrec] at h; cases h
        | ok ps =>
          simp only [hrec, Except.ok.injEq] at h
          rw [← h]
          have hp1 : p.1 ≠ name := by
            rw [bindOne_key bound s0 p hb]
            exact h0
          rw [lookupAssoc_cons_ne _ _ _ hp1]
          exact ih ps s d hf' hlb hd hrec

/-- Claim C4: a parameter with a declared default binds to that default
when its option is absent from the tokens and to the coerced supplied
value when present; a parameter without a default is mandatory — its
absence makes the whole parse fail.  In particular, with the schema entry
`count : int, default 1`, parsing `[]` binds count to 1 and parsing
`["--count", "5"]` binds count to 5.  (For a string-typed default value
argparse coerces the default itself, which the `defaultBound` hypothesis
of the first conjunct accounts for; non-string defaults such as the
literal 1 satisfy it trivially.) -/
theorem c4_binding_semantics :
    (∀ (specs : List ArgSpec) (argv : List String) (s : ArgSpec)
        (name : String) (d : Yaml) (bs : List (String × Yaml)),
      (∀ t ∈ argv, tokenBindsName specs t name = false) →
      specs.find? (fun x => decide (x.name = name)) = some s →
      defaultBound s = .ok d →
      parseKnownArgs specs argv = .ok bs →
      lookupAssoc bs name = some d) ∧
    (∀ (specs : List ArgSpec) (argv : List String) (s : ArgSpec)
        (name : String),
      (∀ t ∈ argv, tokenBindsName specs t name = false) →
      specs.find? (fun x => decide (x.name = name)) = some s →
      s.default = none →
      ∀ bs, parseKnownArgs specs argv ≠ .ok bs) ∧
    (∀ (name v : String) (ty : ArgType) (dflt : Option Yaml) (val : Yaml),
      ("--" ++ name) ≠ "--" → optionLike v = false → coerce ty v = some val →
      parseKnownArgs [⟨name, ty, dflt⟩] ["--" ++ name, v] = .ok [(name, val)]) ∧
    parseKnownArgs [⟨"count", .int, some (.yInt 1)⟩] [] =
      .ok [("count", .yInt 1)] ∧
    parseKnownArgs [⟨"count", .int, some (.yInt 1)⟩] ["--count", "5"] =
      .ok [("count", .yInt 5)] := by
  refine ⟨?_, ?_, ?_, rfl, rfl⟩
  · intro specs argv s name d bs hall hf hd h
    unfold parseKnownArgs at h
    cases hscan : scanArgs specs argv [] with
    | error e => rw [hscan] at h; cases h
    | ok bound =>
      rw [hscan] at h
      have hnb : lookupAssoc bound name = none :=
        scan_unbound specs name argv [] bound hall rfl hscan
      exact finalize_lookup_default bound name specs bs s d hf hnb hd h
  · intro specs argv s name hall hf hd bs h
    unfold parseKnownArgs at h
    cases hscan : scanArgs specs argv [] with
    | error e => rw [hscan] at h; cases h
    | ok bound =>
      rw [hscan] at h
      have hnb : lookupAssoc bound name = none :=
        scan_unbound specs name argv [] bound hall rfl hscan
      have hname : s.name = name := by
        have hp := List.find?_some hf
        simpa using hp
      obtain ⟨p, hp⟩ := finalize_mem_ok bound specs bs h s
        (List.mem_of_find?_eq_some hf)
      unfold bindOne at hp
      rw [hname, hnb] at hp
      unfold defaultBound at hp
      rw [hd] at hp
      simp [Except.map] at hp
  · intro name v ty dflt val ht hv hc
    have hres : resolveOption [⟨name, ty, dflt⟩] ("--" ++ name) =
        .matched ⟨name, ty, dflt⟩ := by
      unfold resolveOption
      simp [List.find?]
    have hscan : scanArgs [⟨name, ty, dflt⟩] ["--" ++ name, v] [] =
        .ok [(name, val)] := by
      simp [scanArgs, ht, hres, hv, hc]
    unfold parseKnownArgs
    rw [hscan]
    simp [finalizeBindings, bindOne, lookupAssoc, List.find?]

theorem c4_binding_semantics_witness :
    lookupAssoc [("count", Yaml.yInt 1)] "count" = some (Yaml.yInt 1) ∧
    parseKnownArgs [⟨"count", ArgType.int, none⟩] [] ≠
      .ok [("count", Yaml.yInt 0)] ∧
    parseKnownArgs [⟨"size", ArgType.int, none⟩] ["--size", "7"] =
      .ok [("size", Yaml.yInt 7)] :=
  ⟨c4_binding_semantics.1 [⟨"count", .int, some (.yInt 1)⟩] [] _ "count" _
     [("count", Yaml.yInt 1)] (by simp) rfl rfl rfl,
   c4_binding_semantics.2.1 [⟨"count", .int, none⟩] [] _ "count" (by simp)
     rfl rfl [("count", Yaml.yInt 0)],
   c4_binding_semantics.2.2.1 "size" "7" .int none (.yInt 7) (by decide)
     (by decide) rfl⟩

def Event.isLogged : Event → Bool
  | .logged _ => true
  | _ => false

/-- A configuration whose `build` script declares one required int
parameter `count` (no default). -/
def cfgBuild : Yaml :=
  .yMap [("scripts", .yMap [("build", .yMap
    [("args", .yMap [("count", .yMap [("type", .yStr "int")])])])])]

/-- A world holding `cfgBuild` on a filesystem where every path exists. -/
def wBuild : World := ⟨allFS, .ok cfgBuild, none, "python3", fun _ => 0⟩

/-- Claim C1 (divergence of the code from its own intent): when argument
binding fails — a value that the declared int type cannot coerce, or an
omitted required parameter — argparse raises `SystemExit(2)`, which the
surrounding `except Exception` (and `main`'s) cannot catch, so the
process exits with code 2, the error is never passed to `logging.error`,
and only argparse's stderr output is produced.  No subprocess is spawned,
but contrary to the claim the failure is not logged and it does propagate
to the top level of the process. -/
theorem c1_parse_failure_escapes_unlogged :
    escriptsMain "/ws" wBuild ["build", "--count", "abc"] =
      ([.printedErr (.invalidValue "count" "abc")], 2) ∧
    escriptsMain "/ws" wBuild ["build"] =
      ([.printedErr (.missingRequired "count")], 2) ∧
    spawnsOf (escriptsMain "/ws" wBuild ["build", "--count", "abc"]).1 = [] ∧
    (escriptsMain "/ws" wBuild ["build", "--count", "abc"]).1.filter
      Event.isLogged = [] ∧
    spawnsOf (escriptsMain "/ws" wBuild ["build"]).1 = [] ∧
    (escriptsMain "/ws" wBuild ["build"]).1.filter Event.isLogged = [] :=
  ⟨rfl, rfl, rfl, rfl, rfl, rfl⟩

end EscriptsSpec

